import Mathlib

/-!
Shallow embedding of the SSD1306 OLED display driver
(`Src/SSD1306.cpp`, `Inc/SSD1306.hpp`, `Hardware/SSD1306_hardware.cpp`).

The display state is a record holding the configuration fields, the packed
framebuffer (a list of bytes), the cursor, the active font, the sticky error
code and the initialization flag.  The I2C transport is modelled by a trace of
emitted events (command bytes and data blocks) together with a status oracle:
the n-th transport call returns status `oracle n`, mirroring the return value
of `HAL_I2C_Mem_Write` (external to the repository); a nonzero status latches
into `last_error` exactly as in `SSD1306_hardware.cpp`.

All `uint8_t` machine arithmetic is made explicit with `% 256`; bytes are
natural numbers.
-/

set_option maxRecDepth 100000

namespace SSD1306

/-- `const uint8_t width = 128;` (fixed in `SSD1306.hpp`). -/
def width : Nat := 128

/-- `const static uint32_t buffer_size = 64 / 8 * 128;` -/
def buffer_size : Nat := 64 / 8 * 128

/-- `enum Color : uint8_t { BLACK = 0, WHITE = 0xff };` -/
inductive Color where
  | BLACK
  | WHITE
deriving DecidableEq

/-- The numeric value of a color, as in the C++ enum. -/
def Color.val : Color → Nat
  | .BLACK => 0
  | .WHITE => 0xff

/-- Modelled from the spec: the font asset format consumed by the glyph
renderer (`fonts.h` is not part of the repository sources): glyph width and
height in pixels plus the table of 16-bit row patterns, indexed by
`(char_code - 32) * height + row`, bit 15 = leftmost pixel. -/
structure FontDef where
  FontWidth : Nat
  FontHeight : Nat
  data : Nat → Nat

/-- One event on the I2C transport: a single command byte
(control byte 0x00) or a data block (control byte 0x40). -/
inductive Event where
  | cmd (b : Nat)
  | data (bytes : List Nat)
deriving DecidableEq

/-- The state of one `SSD1306` object, plus the transport model.
`buffer` is the 1024-byte framebuffer; `trace` is the sequence of events
sent on the bus so far; `oracle n` is the status returned by the n-th
transport call and `calls` counts the calls made. -/
structure St where
  height : Nat
  hard_conf : Nat
  address : Nat
  font : FontDef
  buffer : List Nat
  isinitialized : Bool
  last_error : Int
  cursorX : Nat
  cursorY : Nat
  trace : List Event
  oracle : Nat → Int
  calls : Nat

/-- Constructor `SSD1306(conn, screen_height, hardware_configuration,
device_address)`: stores the configuration and sets `last_error = 0xff`
when `screen_height > 64`.  The C++ constructor leaves `buffer` and
`Coordinates` default-initialized (indeterminate), so they are parameters
here; the default font table is external data, also a parameter. -/
def SSD1306_mk (screen_height hardware_configuration device_address : Nat)
    (font0 : FontDef) (buffer0 : List Nat) (cursorX0 cursorY0 : Nat)
    (oracle0 : Nat → Int) : St :=
  { height := screen_height
    hard_conf := hardware_configuration
    address := device_address
    font := font0
    buffer := buffer0
    isinitialized := false
    last_error := if 64 < screen_height then 0xff else 0
    cursorX := cursorX0
    cursorY := cursorY0
    trace := []
    oracle := oracle0
    calls := 0 }

/-- `Write_Command` (`SSD1306_hardware.cpp`): sends one command byte on the
bus; a nonzero transport status is stored into `last_error`.  The `% 256`
models the `uint8_t` parameter. -/
def Write_Command (s : St) (command : Nat) : St :=
  let temp := s.oracle s.calls
  { s with
    trace := s.trace ++ [Event.cmd (command % 256)]
    calls := s.calls + 1
    last_error := if temp ≠ 0 then temp else s.last_error }

/-- `Write_Data` (`SSD1306_hardware.cpp`): sends `height * width / 8` bytes
of the framebuffer as one data block; a nonzero transport status is stored
into `last_error`. -/
def Write_Data (s : St) : St :=
  let temp := s.oracle s.calls
  { s with
    trace := s.trace ++ [Event.data (s.buffer.take (s.height * width / 8))]
    calls := s.calls + 1
    last_error := if temp ≠ 0 then temp else s.last_error }

/-- `Draw_Pixel(x, y, c)`: out-of-range coordinates are a no-op, otherwise
bit `y % 8` of byte `x + width * (y / 8)` is set (WHITE) or cleared (BLACK).
`255 ^^^ (1 <<< (y % 8))` is `uint8_t(~(1 << (y % 8)))`. -/
def Draw_Pixel (s : St) (x y : Nat) (c : Color) : St :=
  if width ≤ x ∨ s.height ≤ y then
    s
  else
    let i := x + width * (y / 8)
    match c with
    | .WHITE =>
      { s with buffer := s.buffer.set i (s.buffer.getD i 0 ||| (1 <<< (y % 8))) }
    | .BLACK =>
      { s with buffer := s.buffer.set i (s.buffer.getD i 0 &&& (255 ^^^ (1 <<< (y % 8)))) }

/-- Read-back of one pixel by buffer bit extraction, per the packing rule:
bit `y % 8` of byte `x + width * (y / 8)`. -/
def Read_Pixel (s : St) (x y : Nat) : Bool :=
  (s.buffer.getD (x + width * (y / 8)) 0).testBit (y % 8)

/-- `Fill(color)`: byte-level fill of the whole buffer with the color value. -/
def Fill (s : St) (color : Color) : St :=
  { s with buffer := s.buffer.map (fun _ => color.val) }

/-- `Clean()`: `Fill(BLACK)`. -/
def Clean (s : St) : St :=
  Fill s Color.BLACK

/-- `Get_Last_Error()`. -/
def Get_Last_Error (s : St) : Int :=
  s.last_error

/-- `Clean_Errors()`. -/
def Clean_Errors (s : St) : St :=
  { s with last_error := 0 }

/-- `Set_Cursor(x, y)`: arguments at or above the bound are clamped to the
bound (`x = width`, `y = height`) before being stored. -/
def Set_Cursor (s : St) (x y : Nat) : St :=
  let x' := if width ≤ x then width else x
  let y' := if s.height ≤ y then s.height else y
  { s with cursorX := x', cursorY := y' }

/-- `Set_Font_size(font)`. -/
def Set_Font_size (s : St) (f : FontDef) : St :=
  { s with font := f }

/-- `Display_Off()`. -/
def Display_Off (s : St) : St :=
  Write_Command s 0xAE

/-- `Display_On()`. -/
def Display_On (s : St) : St :=
  Write_Command s 0xAF

/-- `Set_Brightness(brightness)`. -/
def Set_Brightness (s : St) (brightness : Nat) : St :=
  Write_Command (Write_Command s 0x81) brightness

/-- `Flip_Screen(flipped)`. -/
def Flip_Screen (s : St) (flipped : Bool) : St :=
  if flipped = false then Write_Command s 0xC8 else Write_Command s 0xC0

/-- `Invert_Colors(inverted)`. -/
def Invert_Colors (s : St) (inverted : Bool) : St :=
  if inverted = true then Write_Command s 0xA7 else Write_Command s 0xA6

/-- `Mirror_Screen(mirrored)`. -/
def Mirror_Screen (s : St) (mirrored : Bool) : St :=
  if mirrored = false then Write_Command s 0xA1 else Write_Command s 0xA0

/-- `Draw_Image(image)`: copies `buffer_size` bytes verbatim into the buffer. -/
def Draw_Image (s : St) (image : Nat → Nat) : St :=
  { s with buffer := (List.range buffer_size).map image }

/-- `Update_Screen()`: re-asserts the column window `[0,127]` and the page
window `[0, height/8 - 1]`, then transmits the used framebuffer prefix as
one data block. -/
def Update_Screen (s : St) : St :=
  let s := Write_Command s 0x21
  let s := Write_Command s 0x00
  let s := Write_Command s 127
  let s := Write_Command s 0x22
  let s := Write_Command s 0x00
  let s := Write_Command s (s.height / 8 - 1)
  Write_Data s

/-- `Draw_Line_H(x, y, length, c)`: pixels at `x + i` for `i = 0, …, length-1`,
ascending; `(x + i) % 256` models the `uint8_t` parameter of `Draw_Pixel`
receiving the `int` sum `x + i`. -/
def Draw_Line_H (s : St) (x y : Nat) (len : Nat) (c : Color) : St :=
  match len with
  | 0 => s
  | n + 1 => Draw_Pixel (Draw_Line_H s x y n c) ((x + n) % 256) y c

/-- `Draw_Line_V(x, y, length, c)`: pixels at `y + i` for `i = 0, …, length-1`. -/
def Draw_Line_V (s : St) (x y : Nat) (len : Nat) (c : Color) : St :=
  match len with
  | 0 => s
  | n + 1 => Draw_Pixel (Draw_Line_V s x y n c) x ((y + n) % 256) c

/-- `Draw_Square(x, y, x2, y2, c)`: four border lines.  The length is the
`int` difference `x2 - x + 1` cast to `uint8_t`: on the `uint8_t` argument
domain (`x, x2 < 256`) that two's-complement wrap is `(x2 + 256 - x + 1) % 256`
(so `x2 < x` wraps to `257 - (x - x2)`; callers must ensure `x2 ≥ x`,
`y2 ≥ y`, the documented hazard). -/
def Draw_Square (s : St) (x y x2 y2 : Nat) (c : Color) : St :=
  let s := Draw_Line_H s x y ((x2 + 256 - x + 1) % 256) c
  let s := Draw_Line_H s x y2 ((x2 + 256 - x + 1) % 256) c
  let s := Draw_Line_V s x y ((y2 + 256 - y + 1) % 256) c
  Draw_Line_V s x2 y ((y2 + 256 - y + 1) % 256) c

/-- `Draw_Waveform(x, y, buffer, size, c)`: pixel at `(i + x, y - buffer[i])`
for each sample.  `y - buffer[i]` is an `int` subtraction of two `uint8_t`
values truncated to `uint8_t` by the `Draw_Pixel` parameter: on the `uint8_t`
domain (`y < 256`, array elements read as `samples n % 256`) that wrap is
`(y + 256 - samples n % 256) % 256` (caller contract `samples i ≤ y`). -/
def Draw_Waveform (s : St) (x y : Nat) (samples : Nat → Nat) (size : Nat)
    (c : Color) : St :=
  match size with
  | 0 => s
  | n + 1 => Draw_Pixel (Draw_Waveform s x y samples n c)
      ((n + x) % 256) ((y + 256 - samples n % 256) % 256) c

/-- Inner loop of `Write_Char`: for `n = 0, …, w-1` draws the cell at
`(px + n, py)` (both truncated to `uint8_t`), WHITE when bit 15 of
`row << n` is set in normal mode, with the two colors swapped in inverted
mode (`c = BLACK`). -/
def Write_Char_Row (s : St) (row px py : Nat) (c : Color) (w : Nat) : St :=
  match w with
  | 0 => s
  | n + 1 =>
    let s' := Write_Char_Row s row px py c n
    match c with
    | .BLACK =>
      if (row <<< n) &&& 0x8000 ≠ 0 then
        Draw_Pixel s' ((px + n) % 256) (py % 256) Color.BLACK
      else
        Draw_Pixel s' ((px + n) % 256) (py % 256) Color.WHITE
    | .WHITE =>
      if (row <<< n) &&& 0x8000 ≠ 0 then
        Draw_Pixel s' ((px + n) % 256) (py % 256) Color.WHITE
      else
        Draw_Pixel s' ((px + n) % 256) (py % 256) Color.BLACK

/-- Outer loop of `Write_Char`: for `m = 0, …, h-1` draws glyph row `m`,
whose pattern is `font.data ((chr - 32) * font.FontHeight + m)`, at
`y = cursor.Y + m`. -/
def Write_Char_Rows (s : St) (chr : Nat) (c : Color) (h : Nat) : St :=
  match h with
  | 0 => s
  | m + 1 =>
    let s' := Write_Char_Rows s chr c m
    Write_Char_Row s' (s'.font.data ((chr - 32) * s'.font.FontHeight + m))
      s'.cursorX (s'.cursorY + m) c s'.font.FontWidth

/-- `Write_Char(chr, color)`: renders the glyph then advances `Coordinates.X`
by `FontWidth` (`uint8_t` addition). -/
def Write_Char (s : St) (chr : Nat) (c : Color) : St :=
  let s' := Write_Char_Rows s chr c s.font.FontHeight
  { s' with cursorX := (s'.cursorX + s'.font.FontWidth) % 256 }

/-- `Write_String(str)`: `Write_Char` with WHITE for each character in order. -/
def Write_String (s : St) (str : List Nat) : St :=
  str.foldl (fun t ch => Write_Char t ch Color.WHITE) s

/-- `Write_String_Inverted(str)`. -/
def Write_String_Inverted (s : St) (str : List Nat) : St :=
  str.foldl (fun t ch => Write_Char t ch Color.BLACK) s

/-- `Initialize()`: the fixed command sequence, then `Display_On`, `Clean`,
`Update_Screen`, and the `initialized` flag from `last_error`; the C++
function returns the flag. -/
def Initialize (s : St) : St :=
  let s := Display_Off s
  let s := Write_Command s 0xD5
  let s := Write_Command s 0x80
  let s := Write_Command s 0xA8
  let s := Write_Command s (s.height - 1)
  let s := Write_Command s 0xD3
  let s := Write_Command s 0x00
  let s := Write_Command s 0x40
  let s := Write_Command s 0x8D
  let s := Write_Command s 0x14
  let s := Mirror_Screen s false
  let s := Flip_Screen s false
  let s := Write_Command s 0xDA
  let s := Write_Command s s.hard_conf
  let s := Set_Brightness s 150
  let s := Write_Command s 0xD9
  let s := Write_Command s 0x22
  let s := Write_Command s 0xDB
  let s := Write_Command s 0x40
  let s := Write_Command s 0xA4
  let s := Invert_Colors s false
  let s := Write_Command s 0x20
  let s := Write_Command s 0x00
  let s := Write_Command s 0x21
  let s := Write_Command s 0x00
  let s := Write_Command s (width - 1)
  let s := Write_Command s 0x22
  let s := Write_Command s 0x00
  let s := Write_Command s (s.height / 8 - 1)
  let s := Display_On s
  let s := Clean s
  let s := Update_Screen s
  { s with isinitialized := decide (s.last_error = 0) }

/-- `IsInitialized()`. -/
def IsInitialized (s : St) : Bool :=
  s.isinitialized

/-- Well-formedness of a display state: a configured height of at most 64
(enforced by the constructor contract) and the fixed 1024-byte buffer of
the C++ class. -/
def WF (s : St) : Prop :=
  s.height ≤ 64 ∧ s.buffer.length = buffer_size

instance (s : St) : Decidable (WF s) := by
  unfold WF
  infer_instance

/-- An all-zero font table, 7×10, standing in for external font data in
concrete test states. -/
def font7x10z : FontDef :=
  ⟨7, 10, fun _ => 0⟩

/-- A concrete well-formed 128×64 display state with a zeroed buffer and an
always-succeeding transport. -/
def st0 : St :=
  SSD1306_mk 64 0x12 0x78 font7x10z (List.replicate 1024 0) 0 0 (fun _ => 0)

/-! ### State-preservation lemmas for `Draw_Pixel` -/

theorem Draw_Pixel_height (s : St) (x y : Nat) (c : Color) :
    (Draw_Pixel s x y c).height = s.height := by
  unfold Draw_Pixel
  split
  · rfl
  · cases c <;> rfl

theorem Draw_Pixel_font (s : St) (x y : Nat) (c : Color) :
    (Draw_Pixel s x y c).font = s.font := by
  unfold Draw_Pixel
  split
  · rfl
  · cases c <;> rfl

theorem Draw_Pixel_cursorX (s : St) (x y : Nat) (c : Color) :
    (Draw_Pixel s x y c).cursorX = s.cursorX := by
  unfold Draw_Pixel
  split
  · rfl
  · cases c <;> rfl

theorem Draw_Pixel_cursorY (s : St) (x y : Nat) (c : Color) :
    (Draw_Pixel s x y c).cursorY = s.cursorY := by
  unfold Draw_Pixel
  split
  · rfl
  · cases c <;> rfl

theorem Draw_Pixel_isinitialized (s : St) (x y : Nat) (c : Color) :
    (Draw_Pixel s x y c).isinitialized = s.isinitialized := by
  unfold Draw_Pixel
  split
  · rfl
  · cases c <;> rfl

theorem Draw_Pixel_last_error (s : St) (x y : Nat) (c : Color) :
    (Draw_Pixel s x y c).last_error = s.last_error := by
  unfold Draw_Pixel
  split
  · rfl
  · cases c <;> rfl

theorem Draw_Pixel_trace (s : St) (x y : Nat) (c : Color) :
    (Draw_Pixel s x y c).trace = s.trace := by
  unfold Draw_Pixel
  split
  · rfl
  · cases c <;> rfl

theorem Draw_Pixel_oracle (s : St) (x y : Nat) (c : Color) :
    (Draw_Pixel s x y c).oracle = s.oracle := by
  unfold Draw_Pixel
  split
  · rfl
  · cases c <;> rfl

theorem Draw_Pixel_calls (s : St) (x y : Nat) (c : Color) :
    (Draw_Pixel s x y c).calls = s.calls := by
  unfold Draw_Pixel
  split
  · rfl
  · cases c <;> rfl

theorem Draw_Pixel_buffer_length (s : St) (x y : Nat) (c : Color) :
    (Draw_Pixel s x y c).buffer.length = s.buffer.length := by
  unfold Draw_Pixel
  split
  · rfl
  · cases c <;> simp

/-! ### Byte- and bit-level helper lemmas -/

theorem getD_set_self (l : List Nat) (i a : Nat) (h : i < l.length) :
    (l.set i a).getD i 0 = a := by
  simp [List.getD, List.getElem?_set_self, List.getElem?_eq_getElem, h]

theorem getD_set_ne (l : List Nat) (i j a : Nat) (h : i ≠ j) :
    (l.set i a).getD j 0 = l.getD j 0 := by
  simp [List.getD, List.getElem?_set_ne h]

theorem testBit_or_bit_self (b k : Nat) :
    (b ||| (1 <<< k)).testBit k = true := by
  simp [Nat.testBit_or, Nat.one_shiftLeft, @Nat.testBit_two_pow_self k]

theorem testBit_or_bit_ne (b k j : Nat) (h : j ≠ k) :
    (b ||| (1 <<< k)).testBit j = b.testBit j := by
  simp [Nat.testBit_or, Nat.one_shiftLeft, Nat.testBit_two_pow_of_ne (Ne.symm h)]

theorem testBit_255 (j : Nat) (hj : j < 8) : (255 : Nat).testBit j = true := by
  interval_cases j <;> decide

theorem testBit_and_mask_self (b k : Nat) (hk : k < 8) :
    (b &&& (255 ^^^ (1 <<< k))).testBit k = false := by
  simp [Nat.testBit_and, Nat.testBit_xor, Nat.one_shiftLeft,
    testBit_255 k hk, @Nat.testBit_two_pow_self k]

theorem testBit_and_mask_ne (b k j : Nat) (hj : j < 8) (h : j ≠ k) :
    (b &&& (255 ^^^ (1 <<< k))).testBit j = b.testBit j := by
  simp [Nat.testBit_and, Nat.testBit_xor, Nat.one_shiftLeft,
    testBit_255 j hj, Nat.testBit_two_pow_of_ne (Ne.symm h)]

/-! ### The two key pixel lemmas: read-back of a written pixel, and
preservation of every other pixel -/

/-- The written byte index is in bounds for an in-range pixel of a
well-formed state. -/
theorem pixel_index_lt (s : St) (x y : Nat) (hx : x < width)
    (hy : y < s.height) (hh : s.height ≤ 64) (hl : s.buffer.length = buffer_size) :
    x + width * (y / 8) < s.buffer.length := by
  rw [hl]
  unfold width at hx ⊢
  unfold buffer_size
  omega

/-- Reading back the pixel just drawn yields `true` exactly for WHITE. -/
theorem Read_Pixel_Draw_Pixel_self (s : St) (x y : Nat) (c : Color)
    (hx : x < width) (hy : y < s.height) (hh : s.height ≤ 64)
    (hl : s.buffer.length = buffer_size) :
    Read_Pixel (Draw_Pixel s x y c) x y = decide (c = Color.WHITE) := by
  have hidx : x + width * (y / 8) < s.buffer.length :=
    pixel_index_lt s x y hx hy hh hl
  have hg : ¬ (width ≤ x ∨ s.height ≤ y) := by
    push_neg
    exact ⟨hx, hy⟩
  have h8 : y % 8 < 8 := Nat.mod_lt _ (by norm_num)
  unfold Draw_Pixel Read_Pixel
  rw [if_neg hg]
  cases c with
  | WHITE =>
    rw [getD_set_self _ _ _ hidx, testBit_or_bit_self]
    rfl
  | BLACK =>
    rw [getD_set_self _ _ _ hidx, testBit_and_mask_self _ _ h8]
    rfl

/-- Drawing pixel `(x, y)` leaves the read-back of any other pixel
`(px, py)` with `px < width` unchanged. -/
theorem Read_Pixel_Draw_Pixel_frame (s : St) (x y px py : Nat) (c : Color)
    (hpx : px < width) (hne : x ≠ px ∨ y ≠ py) :
    Read_Pixel (Draw_Pixel s x y c) px py = Read_Pixel s px py := by
  unfold Draw_Pixel Read_Pixel
  split
  · rfl
  · rename_i hg
    push_neg at hg
    obtain ⟨hx, _⟩ := hg
    by_cases hij : x + width * (y / 8) = px + width * (py / 8)
    · -- same byte, different bit
      have hxeq : x = px ∧ y / 8 = py / 8 := by
        unfold width at hx hpx hij
        omega
      have hyne : y ≠ py := by
        rcases hne with h | h
        · exact absurd hxeq.1 h
        · exact h
      have hbit : y % 8 ≠ py % 8 := by
        have := hxeq.2
        omega
      have h8 : py % 8 < 8 := Nat.mod_lt _ (by norm_num)
      rw [← hij]
      by_cases hlen : x + width * (y / 8) < s.buffer.length
      · cases c with
        | WHITE =>
          rw [getD_set_self _ _ _ hlen, testBit_or_bit_ne _ _ _ (Ne.symm hbit)]
        | BLACK =>
          rw [getD_set_self _ _ _ hlen, testBit_and_mask_ne _ _ _ h8 (Ne.symm hbit)]
      · have hset : ∀ a : Nat, s.buffer.set (x + width * (y / 8)) a = s.buffer :=
          fun a => List.set_eq_of_length_le (by omega)
        cases c <;> simp [hset]
    · -- different byte
      cases c <;> rw [getD_set_ne _ _ _ _ hij]

/-! ### Claim theorems -/

/-- C1: for every in-range pixel `(x, y)` (with `x < width = 128`,
`y < height`), `Draw_Pixel(x, y, WHITE)` sets bit `y % 8` of framebuffer
byte `x + width * (y / 8)` (read-back yields 1) and
`Draw_Pixel(x, y, BLACK)` clears it (read-back yields 0), and for either
color every other bit `k` of that byte is left as it was. -/
theorem C1_draw_pixel_bit (s : St) (x y k : Nat) (c : Color)
    (hx : x < width) (hy : y < s.height) (hwf : WF s)
    (hk : k < 8) (hkne : k ≠ y % 8) :
    Read_Pixel (Draw_Pixel s x y Color.WHITE) x y = true ∧
    Read_Pixel (Draw_Pixel s x y Color.BLACK) x y = false ∧
    ((Draw_Pixel s x y c).buffer.getD (x + width * (y / 8)) 0).testBit k =
      (s.buffer.getD (x + width * (y / 8)) 0).testBit k := by
  obtain ⟨hh, hl⟩ := hwf
  refine ⟨?_, ?_, ?_⟩
  · rw [Read_Pixel_Draw_Pixel_self s x y Color.WHITE hx hy hh hl]
    rfl
  · rw [Read_Pixel_Draw_Pixel_self s x y Color.BLACK hx hy hh hl]
    rfl
  · have hidx : x + width * (y / 8) < s.buffer.length :=
      pixel_index_lt s x y hx hy hh hl
    have hg : ¬ (width ≤ x ∨ s.height ≤ y) := by
      push_neg
      exact ⟨hx, hy⟩
    unfold Draw_Pixel
    rw [if_neg hg]
    cases c with
    | WHITE => rw [getD_set_self _ _ _ hidx, testBit_or_bit_ne _ _ _ hkne]
    | BLACK => rw [getD_set_self _ _ _ hidx, testBit_and_mask_ne _ _ _ hk hkne]

theorem C1_draw_pixel_bit_witness :
    (5 < width ∧ 13 < st0.height ∧ WF st0 ∧ 3 < 8 ∧ 3 ≠ 13 % 8) ∧
    (Read_Pixel (Draw_Pixel st0 5 13 Color.WHITE) 5 13 = true ∧
     Read_Pixel (Draw_Pixel st0 5 13 Color.BLACK) 5 13 = false ∧
     ((Draw_Pixel st0 5 13 Color.WHITE).buffer.getD (5 + width * (13 / 8)) 0).testBit 3 =
       (st0.buffer.getD (5 + width * (13 / 8)) 0).testBit 3) :=
  ⟨⟨by decide, by decide, by decide, by decide, by decide⟩,
   C1_draw_pixel_bit st0 5 13 3 Color.WHITE (by decide) (by decide) (by decide)
     (by decide) (by decide)⟩

/-- C4: `Draw_Pixel` with `x ≥ width` or `y ≥ height` (within the `uint8_t`
argument range) is a silent no-op: the whole state, in particular every
framebuffer byte, is unchanged. -/
theorem C4_draw_pixel_oob (s : St) (x y : Nat) (c : Color)
    (_hx : x < 256) (_hy : y < 256) (h : width ≤ x ∨ s.height ≤ y) :
    Draw_Pixel s x y c = s := by
  unfold Draw_Pixel
  rw [if_pos h]

theorem C4_draw_pixel_oob_witness :
    (200 < 256 ∧ 0 < 256 ∧ (width ≤ 200 ∨ st0.height ≤ 0)) ∧
    Draw_Pixel st0 200 0 Color.WHITE = st0 :=
  ⟨⟨by decide, by decide, by decide⟩,
   C4_draw_pixel_oob st0 200 0 Color.WHITE (by decide) (by decide) (by decide)⟩

/-- C10: an in-range `Draw_Pixel` changes at most framebuffer byte
`x + width * (y / 8)`: every other byte `j` and the cursor, the active
font, the `initialized` flag and `last_error` are unchanged. -/
theorem C10_draw_pixel_frame (s : St) (x y j : Nat) (c : Color)
    (hx : x < width) (hy : y < s.height) (hj : j ≠ x + width * (y / 8)) :
    (Draw_Pixel s x y c).buffer.getD j 0 = s.buffer.getD j 0 ∧
    (Draw_Pixel s x y c).cursorX = s.cursorX ∧
    (Draw_Pixel s x y c).cursorY = s.cursorY ∧
    (Draw_Pixel s x y c).font = s.font ∧
    (Draw_Pixel s x y c).isinitialized = s.isinitialized ∧
    (Draw_Pixel s x y c).last_error = s.last_error := by
  refine ⟨?_, Draw_Pixel_cursorX s x y c, Draw_Pixel_cursorY s x y c,
    Draw_Pixel_font s x y c, Draw_Pixel_isinitialized s x y c,
    Draw_Pixel_last_error s x y c⟩
  have hg : ¬ (width ≤ x ∨ s.height ≤ y) := by
    push_neg
    exact ⟨hx, hy⟩
  unfold Draw_Pixel
  rw [if_neg hg]
  cases c <;> rw [getD_set_ne _ _ _ _ (Ne.symm hj)]

/-- C8 counterexample: the claim puts the cursor in `[0, width)` after every
`Set_Cursor`, but `Set_Cursor(200, 0)` stores `cursor.X = 128 = width`,
which is not `< width`: the code clamps to the bound itself, an inclusive
range. -/
theorem C8_set_cursor_counterexample :
    ¬ ((Set_Cursor st0 200 0).cursorX < width) := by
  decide

/-- C8 (amended): after `Set_Cursor(x, y)` the cursor lies in
`[0, width] × [0, height]` (bounds inclusive): an argument below its bound
is stored unchanged and an argument at or above the bound is clamped to
the bound itself (`width`, resp. `height`), not wrapped. -/
theorem C8_set_cursor_clamp (s : St) (x y : Nat) :
    (Set_Cursor s x y).cursorX ≤ width ∧
    (Set_Cursor s x y).cursorY ≤ s.height ∧
    (x < width → (Set_Cursor s x y).cursorX = x) ∧
    (width ≤ x → (Set_Cursor s x y).cursorX = width) ∧
    (y < s.height → (Set_Cursor s x y).cursorY = y) ∧
    (s.height ≤ y → (Set_Cursor s x y).cursorY = s.height) := by
  unfold Set_Cursor
  refine ⟨?_, ?_, ?_, ?_, ?_, ?_⟩ <;> dsimp only <;> split <;> omega

theorem C8_set_cursor_clamp_witness :
    (Set_Cursor st0 200 13).cursorX ≤ width ∧
    (Set_Cursor st0 200 13).cursorY ≤ st0.height ∧
    (200 < width → (Set_Cursor st0 200 13).cursorX = 200) ∧
    (width ≤ 200 → (Set_Cursor st0 200 13).cursorX = width) ∧
    (13 < st0.height → (Set_Cursor st0 200 13).cursorY = 13) ∧
    (st0.height ≤ 13 → (Set_Cursor st0 200 13).cursorY = st0.height) :=
  C8_set_cursor_clamp st0 200 13

theorem C10_draw_pixel_frame_witness :
    (5 < width ∧ 13 < st0.height ∧ 0 ≠ 5 + width * (13 / 8)) ∧
    ((Draw_Pixel st0 5 13 Color.WHITE).buffer.getD 0 0 = st0.buffer.getD 0 0 ∧
     (Draw_Pixel st0 5 13 Color.WHITE).cursorX = st0.cursorX ∧
     (Draw_Pixel st0 5 13 Color.WHITE).cursorY = st0.cursorY ∧
     (Draw_Pixel st0 5 13 Color.WHITE).font = st0.font ∧
     (Draw_Pixel st0 5 13 Color.WHITE).isinitialized = st0.isinitialized ∧
     (Draw_Pixel st0 5 13 Color.WHITE).last_error = st0.last_error) :=
  ⟨⟨by decide, by decide, by decide⟩,
   C10_draw_pixel_frame st0 5 13 0 Color.WHITE (by decide) (by decide) (by decide)⟩

/-! ### Sticky-error lemmas -/

theorem Write_Command_err_ne (s : St) (b : Nat) (h : s.last_error ≠ 0) :
    (Write_Command s b).last_error ≠ 0 := by
  unfold Write_Command
  dsimp only
  split
  · assumption
  · exact h

theorem Write_Data_err_ne (s : St) (h : s.last_error ≠ 0) :
    (Write_Data s).last_error ≠ 0 := by
  unfold Write_Data
  dsimp only
  split
  · assumption
  · exact h

theorem Display_Off_err_ne (s : St) (h : s.last_error ≠ 0) :
    (Display_Off s).last_error ≠ 0 :=
  Write_Command_err_ne s 0xAE h

theorem Display_On_err_ne (s : St) (h : s.last_error ≠ 0) :
    (Display_On s).last_error ≠ 0 :=
  Write_Command_err_ne s 0xAF h

theorem Set_Brightness_err_ne (s : St) (b : Nat) (h : s.last_error ≠ 0) :
    (Set_Brightness s b).last_error ≠ 0 :=
  Write_Command_err_ne _ _ (Write_Command_err_ne _ _ h)

theorem Mirror_Screen_err_ne (s : St) (m : Bool) (h : s.last_error ≠ 0) :
    (Mirror_Screen s m).last_error ≠ 0 := by
  unfold Mirror_Screen
  split <;> exact Write_Command_err_ne _ _ h

theorem Flip_Screen_err_ne (s : St) (m : Bool) (h : s.last_error ≠ 0) :
    (Flip_Screen s m).last_error ≠ 0 := by
  unfold Flip_Screen
  split <;> exact Write_Command_err_ne _ _ h

theorem Invert_Colors_err_ne (s : St) (m : Bool) (h : s.last_error ≠ 0) :
    (Invert_Colors s m).last_error ≠ 0 := by
  unfold Invert_Colors
  split <;> exact Write_Command_err_ne _ _ h

theorem Clean_last_error (s : St) : (Clean s).last_error = s.last_error := rfl

theorem Fill_last_error (s : St) (c : Color) :
    (Fill s c).last_error = s.last_error := rfl

theorem Update_Screen_err_ne (s : St) (h : s.last_error ≠ 0) :
    (Update_Screen s).last_error ≠ 0 := by
  unfold Update_Screen
  dsimp only
  apply Write_Data_err_ne
  iterate 6 apply Write_Command_err_ne
  exact h

theorem Initialize_err_ne (s : St) (h : s.last_error ≠ 0) :
    (Initialize s).last_error ≠ 0 := by
  unfold Initialize
  dsimp only
  apply Update_Screen_err_ne
  rw [Clean_last_error]
  apply Display_On_err_ne
  iterate 8 apply Write_Command_err_ne
  apply Invert_Colors_err_ne
  iterate 5 apply Write_Command_err_ne
  apply Set_Brightness_err_ne
  iterate 2 apply Write_Command_err_ne
  apply Flip_Screen_err_ne
  apply Mirror_Screen_err_ne
  iterate 9 apply Write_Command_err_ne
  apply Display_Off_err_ne
  exact h

/-! ### Pure drawing operations do not touch `last_error` -/

theorem Draw_Line_H_last_error (s : St) (x y : Nat) (c : Color) :
    ∀ len, (Draw_Line_H s x y len c).last_error = s.last_error := by
  intro len
  induction len with
  | zero => rfl
  | succ n ih =>
    unfold Draw_Line_H
    rw [Draw_Pixel_last_error, ih]

theorem Draw_Line_V_last_error (s : St) (x y : Nat) (c : Color) :
    ∀ len, (Draw_Line_V s x y len c).last_error = s.last_error := by
  intro len
  induction len with
  | zero => rfl
  | succ n ih =>
    unfold Draw_Line_V
    rw [Draw_Pixel_last_error, ih]

theorem Draw_Square_last_error (s : St) (x y x2 y2 : Nat) (c : Color) :
    (Draw_Square s x y x2 y2 c).last_error = s.last_error := by
  unfold Draw_Square
  dsimp only
  rw [Draw_Line_V_last_error, Draw_Line_V_last_error,
    Draw_Line_H_last_error, Draw_Line_H_last_error]

theorem Draw_Waveform_last_error (s : St) (x y : Nat) (smp : Nat → Nat)
    (c : Color) : ∀ sz, (Draw_Waveform s x y smp sz c).last_error = s.last_error := by
  intro sz
  induction sz with
  | zero => rfl
  | succ n ih =>
    unfold Draw_Waveform
    rw [Draw_Pixel_last_error, ih]

theorem Write_Char_Row_last_error (row px py : Nat) (c : Color) :
    ∀ w s, (Write_Char_Row s row px py c w).last_error = s.last_error := by
  intro w
  induction w with
  | zero => intro s; rfl
  | succ n ih =>
    intro s
    unfold Write_Char_Row
    cases c <;> dsimp only <;> split <;> rw [Draw_Pixel_last_error, ih]

theorem Write_Char_Rows_last_error (chr : Nat) (c : Color) :
    ∀ h s, (Write_Char_Rows s chr c h).last_error = s.last_error := by
  intro h
  induction h with
  | zero => intro s; rfl
  | succ m ih =>
    intro s
    unfold Write_Char_Rows
    dsimp only
    rw [Write_Char_Row_last_error, ih]

theorem Write_Char_last_error (s : St) (chr : Nat) (c : Color) :
    (Write_Char s chr c).last_error = s.last_error := by
  unfold Write_Char
  dsimp only
  rw [Write_Char_Rows_last_error]

theorem Write_String_last_error (str : List Nat) :
    ∀ s : St, (Write_String s str).last_error = s.last_error := by
  induction str with
  | nil => intro s; rfl
  | cons ch tl ih =>
    intro s
    show (Write_String (Write_Char s ch Color.WHITE) tl).last_error = _
    rw [ih, Write_Char_last_error]

theorem Write_String_Inverted_last_error (str : List Nat) :
    ∀ s : St, (Write_String_Inverted s str).last_error = s.last_error := by
  induction str with
  | nil => intro s; rfl
  | cons ch tl ih =>
    intro s
    show (Write_String_Inverted (Write_Char s ch Color.BLACK) tl).last_error = _
    rw [ih, Write_Char_last_error]

/-! ### Oracle-success runs leave `last_error` alone -/

/-- Every (future) transport call of this state succeeds. -/
def OracleZero (s : St) : Prop := ∀ n, s.oracle n = 0

theorem Initialize_last_error_oz (s : St) (h : OracleZero s) :
    (Initialize s).last_error = s.last_error := by
  have h' : ∀ n, s.oracle n = 0 := h
  simp [Initialize, Update_Screen, Display_Off, Display_On, Mirror_Screen,
    Flip_Screen, Invert_Colors, Set_Brightness, Clean, Fill,
    Write_Command, Write_Data, h']

/-- A concrete state with a latched error: constructed with
`screen_height = 65 > 64`, so `last_error = 0xff`. -/
def st_err : St :=
  SSD1306_mk 65 0x12 0x78 font7x10z (List.replicate 1024 0) 0 0 (fun _ => 0)

theorem Initialize_isinit_iff (s : St) :
    (Initialize s).isinitialized = true ↔ (Initialize s).last_error = 0 := by
  unfold Initialize
  dsimp only
  simp

/-- A concrete clean state (`last_error = 0`) whose transport always fails
with status 3: its first transport call latches 3 from a clean state. -/
def st_fail : St :=
  SSD1306_mk 64 0x12 0x78 font7x10z (List.replicate 1024 0) 0 0 (fun _ => 3)

/-- C6: the `last_error` field is sticky.  For every state, a transport call
returning a nonzero status stores that status into `last_error` (also when
`last_error` was still 0), a zero status leaves `last_error` unchanged,
`Get_Last_Error` reads the current value and `Clean_Errors` resets it to 0;
and every other operation of the driver preserves a nonzero `last_error`,
so `Clean_Errors` is the only operation that resets it. -/
theorem C6_sticky_last_error (s t u : St) (b x y x2 y2 len sz chr : Nat)
    (c : Color) (f : FontDef) (img smp : Nat → Nat) (str : List Nat)
    (m : Bool) :
    (s.oracle s.calls ≠ 0 → (Write_Command s b).last_error = s.oracle s.calls) ∧
    (t.oracle t.calls = 0 → (Write_Command t b).last_error = t.last_error) ∧
    (s.oracle s.calls ≠ 0 → (Write_Data s).last_error = s.oracle s.calls) ∧
    (t.oracle t.calls = 0 → (Write_Data t).last_error = t.last_error) ∧
    Get_Last_Error s = s.last_error ∧
    (Clean_Errors s).last_error = 0 ∧
    (u.last_error ≠ 0 → (Draw_Pixel u x y c).last_error ≠ 0) ∧
    (u.last_error ≠ 0 → (Fill u c).last_error ≠ 0) ∧
    (u.last_error ≠ 0 → (Clean u).last_error ≠ 0) ∧
    (u.last_error ≠ 0 → (Draw_Image u img).last_error ≠ 0) ∧
    (u.last_error ≠ 0 → (Set_Cursor u x y).last_error ≠ 0) ∧
    (u.last_error ≠ 0 → (Set_Font_size u f).last_error ≠ 0) ∧
    (u.last_error ≠ 0 → (Draw_Line_H u x y len c).last_error ≠ 0) ∧
    (u.last_error ≠ 0 → (Draw_Line_V u x y len c).last_error ≠ 0) ∧
    (u.last_error ≠ 0 → (Draw_Square u x y x2 y2 c).last_error ≠ 0) ∧
    (u.last_error ≠ 0 → (Draw_Waveform u x y smp sz c).last_error ≠ 0) ∧
    (u.last_error ≠ 0 → (Write_Char u chr c).last_error ≠ 0) ∧
    (u.last_error ≠ 0 → (Write_String u str).last_error ≠ 0) ∧
    (u.last_error ≠ 0 → (Write_String_Inverted u str).last_error ≠ 0) ∧
    (u.last_error ≠ 0 → (Display_On u).last_error ≠ 0) ∧
    (u.last_error ≠ 0 → (Display_Off u).last_error ≠ 0) ∧
    (u.last_error ≠ 0 → (Set_Brightness u b).last_error ≠ 0) ∧
    (u.last_error ≠ 0 → (Flip_Screen u m).last_error ≠ 0) ∧
    (u.last_error ≠ 0 → (Invert_Colors u m).last_error ≠ 0) ∧
    (u.last_error ≠ 0 → (Mirror_Screen u m).last_error ≠ 0) ∧
    (u.last_error ≠ 0 → (Update_Screen u).last_error ≠ 0) ∧
    (u.last_error ≠ 0 → (Initialize u).last_error ≠ 0) := by
  refine ⟨?_, ?_, ?_, ?_, rfl, rfl, ?_,
    fun h => h, fun h => h, fun h => h, fun h => h, fun h => h,
    ?_, ?_, ?_, ?_, ?_, ?_, ?_,
    Display_On_err_ne u, Display_Off_err_ne u,
    Set_Brightness_err_ne u b, Flip_Screen_err_ne u m,
    Invert_Colors_err_ne u m, Mirror_Screen_err_ne u m,
    Update_Screen_err_ne u, Initialize_err_ne u⟩
  · intro hnz
    simp [Write_Command, hnz]
  · intro hz
    simp [Write_Command, hz]
  · intro hnz
    simp [Write_Data, hnz]
  · intro hz
    simp [Write_Data, hz]
  · intro h
    rw [Draw_Pixel_last_error]
    exact h
  · intro h
    rw [Draw_Line_H_last_error]
    exact h
  · intro h
    rw [Draw_Line_V_last_error]
    exact h
  · intro h
    rw [Draw_Square_last_error]
    exact h
  · intro h
    rw [Draw_Waveform_last_error]
    exact h
  · intro h
    rw [Write_Char_last_error]
    exact h
  · intro h
    rw [Write_String_last_error]
    exact h
  · intro h
    rw [Write_String_Inverted_last_error]
    exact h

theorem C6_sticky_last_error_witness :
    (st_fail.oracle st_fail.calls ≠ 0 ∧ st_fail.last_error = 0 ∧
     st_err.oracle st_err.calls = 0 ∧ st_err.last_error ≠ 0) ∧
    ((st_fail.oracle st_fail.calls ≠ 0 →
        (Write_Command st_fail 1).last_error = st_fail.oracle st_fail.calls) ∧
     (st_err.oracle st_err.calls = 0 →
        (Write_Command st_err 1).last_error = st_err.last_error) ∧
     (st_fail.oracle st_fail.calls ≠ 0 →
        (Write_Data st_fail).last_error = st_fail.oracle st_fail.calls) ∧
     (st_err.oracle st_err.calls = 0 →
        (Write_Data st_err).last_error = st_err.last_error) ∧
     Get_Last_Error st_fail = st_fail.last_error ∧
     (Clean_Errors st_fail).last_error = 0 ∧
     (st_err.last_error ≠ 0 → (Draw_Pixel st_err 2 3 Color.WHITE).last_error ≠ 0) ∧
     (st_err.last_error ≠ 0 → (Fill st_err Color.WHITE).last_error ≠ 0) ∧
     (st_err.last_error ≠ 0 → (Clean st_err).last_error ≠ 0) ∧
     (st_err.last_error ≠ 0 → (Draw_Image st_err (fun _ => 7)).last_error ≠ 0) ∧
     (st_err.last_error ≠ 0 → (Set_Cursor st_err 2 3).last_error ≠ 0) ∧
     (st_err.last_error ≠ 0 → (Set_Font_size st_err font7x10z).last_error ≠ 0) ∧
     (st_err.last_error ≠ 0 → (Draw_Line_H st_err 2 3 4 Color.WHITE).last_error ≠ 0) ∧
     (st_err.last_error ≠ 0 → (Draw_Line_V st_err 2 3 4 Color.WHITE).last_error ≠ 0) ∧
     (st_err.last_error ≠ 0 → (Draw_Square st_err 2 3 5 6 Color.WHITE).last_error ≠ 0) ∧
     (st_err.last_error ≠ 0 →
        (Draw_Waveform st_err 2 3 (fun _ => 1) 4 Color.WHITE).last_error ≠ 0) ∧
     (st_err.last_error ≠ 0 → (Write_Char st_err 56 Color.WHITE).last_error ≠ 0) ∧
     (st_err.last_error ≠ 0 → (Write_String st_err [56]).last_error ≠ 0) ∧
     (st_err.last_error ≠ 0 → (Write_String_Inverted st_err [56]).last_error ≠ 0) ∧
     (st_err.last_error ≠ 0 → (Display_On st_err).last_error ≠ 0) ∧
     (st_err.last_error ≠ 0 → (Display_Off st_err).last_error ≠ 0) ∧
     (st_err.last_error ≠ 0 → (Set_Brightness st_err 1).last_error ≠ 0) ∧
     (st_err.last_error ≠ 0 → (Flip_Screen st_err false).last_error ≠ 0) ∧
     (st_err.last_error ≠ 0 → (Invert_Colors st_err false).last_error ≠ 0) ∧
     (st_err.last_error ≠ 0 → (Mirror_Screen st_err false).last_error ≠ 0) ∧
     (st_err.last_error ≠ 0 → (Update_Screen st_err).last_error ≠ 0) ∧
     (st_err.last_error ≠ 0 → (Initialize st_err).last_error ≠ 0)) :=
  ⟨⟨by decide, by decide, by decide, by decide⟩,
   C6_sticky_last_error st_fail st_err st_err 1 2 3 5 6 4 4 56 Color.WHITE
     font7x10z (fun _ => 7) (fun _ => 1) [56] false⟩

/-- C7: `Initialize` reports success (returns its `initialized` flag) iff
`last_error = 0` after the whole sequence; with an all-success transport it
never changes `last_error` itself, so an error latched before the call makes
it report failure; and construction with `screen_height > 64` sets
`last_error` to the sentinel `0xff` with no hardware interaction
(empty trace, zero transport calls). -/
theorem C7_initialize_success (s t : St) (h2 hc ad cx cy : Nat)
    (f : FontDef) (buf : List Nat) (orc : Nat → Int)
    (hz : OracleZero t) (hh : 64 < h2) :
    ((Initialize s).isinitialized = true ↔ (Initialize s).last_error = 0) ∧
    (Initialize t).last_error = t.last_error ∧
    (t.last_error ≠ 0 → (Initialize t).isinitialized = false) ∧
    (SSD1306_mk h2 hc ad f buf cx cy orc).last_error = 0xff ∧
    (SSD1306_mk h2 hc ad f buf cx cy orc).trace = [] ∧
    (SSD1306_mk h2 hc ad f buf cx cy orc).calls = 0 := by
  refine ⟨Initialize_isinit_iff s, Initialize_last_error_oz t hz, ?_, ?_, rfl, rfl⟩
  · intro hne
    cases hbool : (Initialize t).isinitialized with
    | false => rfl
    | true => exact absurd ((Initialize_isinit_iff t).mp hbool) (Initialize_err_ne t hne)
  · unfold SSD1306_mk
    dsimp only
    rw [if_pos hh]

theorem C7_initialize_success_witness :
    (OracleZero st_err ∧ 64 < 65) ∧
    (((Initialize st0).isinitialized = true ↔ (Initialize st0).last_error = 0) ∧
     (Initialize st_err).last_error = st_err.last_error ∧
     (st_err.last_error ≠ 0 → (Initialize st_err).isinitialized = false) ∧
     (SSD1306_mk 65 0x12 0x78 font7x10z [] 0 0 (fun _ => 0)).last_error = 0xff ∧
     (SSD1306_mk 65 0x12 0x78 font7x10z [] 0 0 (fun _ => 0)).trace = [] ∧
     (SSD1306_mk 65 0x12 0x78 font7x10z [] 0 0 (fun _ => 0)).calls = 0) :=
  ⟨⟨fun _ => rfl, by decide⟩,
   C7_initialize_success st0 st_err 65 0x12 0x78 0 0 font7x10z []
     (fun _ => 0) (fun _ => rfl) (by decide)⟩

/-! ### Wire-protocol traces (C2, C3) -/

/-- The initialization command byte sequence of the claim, with the mirror,
flip and invert slots at their normal variants `0xA1`, `0xC8`, `0xA6`. -/
def initCmds (h hc : Nat) : List Nat :=
  [0xAE, 0xD5, 0x80, 0xA8, h - 1, 0xD3, 0x00, 0x40, 0x8D, 0x14,
   0xA1, 0xC8, 0xDA, hc, 0x81, 150, 0xD9, 0x22, 0xDB, 0x40, 0xA4, 0xA6,
   0x20, 0x00, 0x21, 0x00, 127, 0x22, 0x00, h / 8 - 1, 0xAF]

/-- C3: `Update_Screen` sends exactly the command bytes
`0x21, 0x00, 127, 0x22, 0x00, height/8 - 1`, in that order, followed by the
framebuffer contents as one data block of exactly `width * height / 8`
bytes; the framebuffer itself is not modified. -/
theorem C3_update_screen_trace (s : St) (h8 : 8 ≤ s.height)
    (hh : s.height ≤ 64) (hl : s.buffer.length = buffer_size) :
    (Update_Screen s).trace =
      s.trace ++ [Event.cmd 0x21, Event.cmd 0x00, Event.cmd 127, Event.cmd 0x22,
        Event.cmd 0x00, Event.cmd (s.height / 8 - 1),
        Event.data (s.buffer.take (width * s.height / 8))] ∧
    (s.buffer.take (width * s.height / 8)).length = width * s.height / 8 ∧
    (Update_Screen s).buffer = s.buffer := by
  have e1 : (s.height / 8 - 1) % 256 = s.height / 8 - 1 :=
    Nat.mod_eq_of_lt (by omega)
  have hle : width * s.height / 8 ≤ s.buffer.length := by
    rw [hl]
    unfold width buffer_size
    omega
  refine ⟨?_, ?_, ?_⟩
  · simp [Update_Screen, Write_Command, Write_Data, e1, Nat.mul_comm]
  · simp [List.length_take, Nat.min_eq_left hle]
  · simp [Update_Screen, Write_Command, Write_Data]

theorem C3_update_screen_trace_witness :
    (8 ≤ st0.height ∧ st0.height ≤ 64 ∧ st0.buffer.length = buffer_size) ∧
    ((Update_Screen st0).trace =
      st0.trace ++ [Event.cmd 0x21, Event.cmd 0x00, Event.cmd 127, Event.cmd 0x22,
        Event.cmd 0x00, Event.cmd (st0.height / 8 - 1),
        Event.data (st0.buffer.take (width * st0.height / 8))] ∧
     (st0.buffer.take (width * st0.height / 8)).length = width * st0.height / 8 ∧
     (Update_Screen st0).buffer = st0.buffer) :=
  ⟨⟨by decide, by decide, by decide⟩,
   C3_update_screen_trace st0 (by decide) (by decide) (by decide)⟩

/-- C2: `Initialize` issues exactly the command bytes of `initCmds`
(`0xAE … 0xAF`, with the mirror/flip/invert slots at their normal variants
`0xA1`, `0xC8`, `0xA6` and contrast 150), then clears the framebuffer to
all-BLACK and performs one `Update_Screen` flush (whose data block is
therefore all zeros). -/
theorem C2_initialize_sequence (s : St) (h8 : 8 ≤ s.height)
    (hh : s.height ≤ 64) (hc : s.hard_conf < 256)
    (hl : s.buffer.length = buffer_size) :
    (Initialize s).trace =
      s.trace ++ (initCmds s.height s.hard_conf).map Event.cmd
        ++ [Event.cmd 0x21, Event.cmd 0x00, Event.cmd 127, Event.cmd 0x22,
            Event.cmd 0x00, Event.cmd (s.height / 8 - 1),
            Event.data (List.replicate (width * s.height / 8) 0)] ∧
    (Initialize s).buffer = List.replicate buffer_size 0 := by
  have e1 : (s.height - 1) % 256 = s.height - 1 := Nat.mod_eq_of_lt (by omega)
  have e2 : (s.height / 8 - 1) % 256 = s.height / 8 - 1 :=
    Nat.mod_eq_of_lt (by omega)
  have e3 : s.hard_conf % 256 = s.hard_conf := Nat.mod_eq_of_lt hc
  have e4 : (width - 1) % 256 = 127 := by decide
  have hmin : min (s.height * width / 8) s.buffer.length = width * s.height / 8 := by
    rw [hl]
    unfold width buffer_size
    omega
  constructor
  · simp [Initialize, Update_Screen, Display_Off, Display_On, Mirror_Screen,
      Flip_Screen, Invert_Colors, Set_Brightness, Clean, Fill,
      Write_Command, Write_Data, initCmds, Color.val, e1, e2, e3, e4,
      List.take_replicate, hmin]
  · simp [Initialize, Update_Screen, Display_Off, Display_On, Mirror_Screen,
      Flip_Screen, Invert_Colors, Set_Brightness, Clean, Fill,
      Write_Command, Write_Data, Color.val, hl]

theorem C2_initialize_sequence_witness :
    (8 ≤ st0.height ∧ st0.height ≤ 64 ∧ st0.hard_conf < 256 ∧
      st0.buffer.length = buffer_size) ∧
    ((Initialize st0).trace =
      st0.trace ++ (initCmds st0.height st0.hard_conf).map Event.cmd
        ++ [Event.cmd 0x21, Event.cmd 0x00, Event.cmd 127, Event.cmd 0x22,
            Event.cmd 0x00, Event.cmd (st0.height / 8 - 1),
            Event.data (List.replicate (width * st0.height / 8) 0)] ∧
     (Initialize st0).buffer = List.replicate buffer_size 0) :=
  ⟨⟨by decide, by decide, by decide, by decide⟩,
   C2_initialize_sequence st0 (by decide) (by decide) (by decide) (by decide)⟩

/-! ### Lines (C9) -/

theorem Draw_Line_H_height (s : St) (x y : Nat) (c : Color) :
    ∀ len, (Draw_Line_H s x y len c).height = s.height := by
  intro len
  induction len with
  | zero => rfl
  | succ n ih =>
    unfold Draw_Line_H
    rw [Draw_Pixel_height, ih]

theorem Draw_Line_H_buffer_length (s : St) (x y : Nat) (c : Color) :
    ∀ len, (Draw_Line_H s x y len c).buffer.length = s.buffer.length := by
  intro len
  induction len with
  | zero => rfl
  | succ n ih =>
    unfold Draw_Line_H
    rw [Draw_Pixel_buffer_length, ih]

theorem Draw_Line_V_height (s : St) (x y : Nat) (c : Color) :
    ∀ len, (Draw_Line_V s x y len c).height = s.height := by
  intro len
  induction len with
  | zero => rfl
  | succ n ih =>
    unfold Draw_Line_V
    rw [Draw_Pixel_height, ih]

theorem Draw_Line_V_buffer_length (s : St) (x y : Nat) (c : Color) :
    ∀ len, (Draw_Line_V s x y len c).buffer.length = s.buffer.length := by
  intro len
  induction len with
  | zero => rfl
  | succ n ih =>
    unfold Draw_Line_V
    rw [Draw_Pixel_buffer_length, ih]

/-- The horizontal segment actually touched by `Draw_Line_H(x, y, len, ·)`
contains pixel `(px, py)` (with the `uint8_t` truncation of `x + i`). -/
def OnSegH (x y len px py : Nat) : Prop :=
  ∃ i, i < len ∧ (x + i) % 256 = px ∧ y = py

instance (x y len px py : Nat) : Decidable (OnSegH x y len px py) := by
  unfold OnSegH
  infer_instance

/-- The vertical segment actually touched by `Draw_Line_V(x, y, len, ·)`
contains pixel `(px, py)`. -/
def OnSegV (x y len px py : Nat) : Prop :=
  ∃ i, i < len ∧ x = px ∧ (y + i) % 256 = py

instance (x y len px py : Nat) : Decidable (OnSegV x y len px py) := by
  unfold OnSegV
  infer_instance

theorem Read_Pixel_Draw_Line_H_frame (x y len px py : Nat) (c : Color)
    (hpx : px < width) (hmiss : ¬ OnSegH x y len px py) :
    ∀ s, Read_Pixel (Draw_Line_H s x y len c) px py = Read_Pixel s px py := by
  induction len with
  | zero => intro s; rfl
  | succ n ih =>
    intro s
    unfold Draw_Line_H
    have hne : (x + n) % 256 ≠ px ∨ y ≠ py := by
      by_contra hcon
      push_neg at hcon
      exact hmiss ⟨n, Nat.lt_succ_self n, hcon.1, hcon.2⟩
    rw [Read_Pixel_Draw_Pixel_frame _ _ _ _ _ _ hpx hne]
    exact ih (fun ⟨i, hi, he⟩ => hmiss ⟨i, Nat.lt_succ_of_lt hi, he⟩) s

theorem Read_Pixel_Draw_Line_V_frame (x y len px py : Nat) (c : Color)
    (hpx : px < width) (hmiss : ¬ OnSegV x y len px py) :
    ∀ s, Read_Pixel (Draw_Line_V s x y len c) px py = Read_Pixel s px py := by
  induction len with
  | zero => intro s; rfl
  | succ n ih =>
    intro s
    unfold Draw_Line_V
    have hne : x ≠ px ∨ (y + n) % 256 ≠ py := by
      by_contra hcon
      push_neg at hcon
      exact hmiss ⟨n, Nat.lt_succ_self n, hcon.1, hcon.2⟩
    rw [Read_Pixel_Draw_Pixel_frame _ _ _ _ _ _ hpx hne]
    exact ih (fun ⟨i, hi, he⟩ => hmiss ⟨i, Nat.lt_succ_of_lt hi, he⟩) s

theorem Read_Pixel_Draw_Line_H_effect (x y : Nat) (c : Color) :
    ∀ len s i, i < len → (x + i) % 256 < width → y < s.height →
      s.height ≤ 64 → s.buffer.length = buffer_size →
      Read_Pixel (Draw_Line_H s x y len c) ((x + i) % 256) y =
        decide (c = Color.WHITE) := by
  intro len
  induction len with
  | zero => intro s i hi; omega
  | succ n ih =>
    intro s i hi hxi hy hh hl
    unfold Draw_Line_H
    by_cases heq : (x + i) % 256 = (x + n) % 256
    · rw [heq]
      exact Read_Pixel_Draw_Pixel_self _ _ _ _ (heq ▸ hxi)
        (by rw [Draw_Line_H_height]; exact hy)
        (by rw [Draw_Line_H_height]; exact hh)
        (by rw [Draw_Line_H_buffer_length]; exact hl)
    · rw [Read_Pixel_Draw_Pixel_frame _ _ _ _ _ _ hxi (Or.inl (Ne.symm heq))]
      have hin : i < n := by
        rcases Nat.lt_succ_iff_lt_or_eq.mp hi with h | h
        · exact h
        · exact absurd (by rw [h]) heq
      exact ih s i hin hxi hy hh hl

theorem Read_Pixel_Draw_Line_V_effect (x y : Nat) (c : Color) :
    ∀ len s i, i < len → x < width → (y + i) % 256 < s.height →
      s.height ≤ 64 → s.buffer.length = buffer_size →
      Read_Pixel (Draw_Line_V s x y len c) x ((y + i) % 256) =
        decide (c = Color.WHITE) := by
  intro len
  induction len with
  | zero => intro s i hi; omega
  | succ n ih =>
    intro s i hi hx hyi hh hl
    unfold Draw_Line_V
    by_cases heq : (y + i) % 256 = (y + n) % 256
    · rw [heq]
      exact Read_Pixel_Draw_Pixel_self _ _ _ _ hx
        (by rw [Draw_Line_V_height]; exact heq ▸ hyi)
        (by rw [Draw_Line_V_height]; exact hh)
        (by rw [Draw_Line_V_buffer_length]; exact hl)
    · rw [Read_Pixel_Draw_Pixel_frame _ _ _ _ _ _ hx (Or.inr (Ne.symm heq))]
      have hin : i < n := by
        rcases Nat.lt_succ_iff_lt_or_eq.mp hi with h | h
        · exact h
        · exact absurd (by rw [h]) heq
      exact ih s i hin hx hyi hh hl

/-- C9 counterexample: the claim allows `Draw_Line_H` to modify only pixels
of the stated segment `(x + i, y)` that lie on the screen.  But
`Draw_Line_H(255, 0, 2, WHITE)` — whose stated segment `(255, 0), (256, 0)`
lies entirely off-screen (`≥ width`) — turns pixel `(0, 0)` on, because the
`uint8_t` parameter of `Draw_Pixel` wraps `255 + 1` to `0`. -/
theorem C9_lines_counterexample :
    (width ≤ 255 + 0 ∧ width ≤ 255 + 1) ∧
    Read_Pixel (Draw_Line_H st0 255 0 2 Color.WHITE) 0 0 = true ∧
    Read_Pixel st0 0 0 = false := by
  decide

/-- C9 (amended): `Draw_Line_H(x, y, length, c)` performs `length`
`Draw_Pixel` calls at `((x + i) mod 256, y)` for `i = 0, …, length-1` (the
`uint8_t` argument truncation), and `Draw_Line_V` symmetrically at
`(x, (y + i) mod 256)`; each out-of-range pixel is individually dropped, so
the only framebuffer bits modified are those of pixels of the truncated
segment that lie inside `[0, width) × [0, height)`, and every on-screen
pixel of the truncated segment reads back the drawn color.  The H-line and
V-line properties are stated over independent arguments, each under only
its own hypotheses. -/
theorem C9_lines (s : St) (x y len i px py x2 y2 len2 i2 qx qy : Nat)
    (c : Color) (hwf : WF s) (hpx : px < width) (hqx : qx < width) :
    (¬ OnSegH x y len px py →
      Read_Pixel (Draw_Line_H s x y len c) px py = Read_Pixel s px py) ∧
    (¬ OnSegV x2 y2 len2 qx qy →
      Read_Pixel (Draw_Line_V s x2 y2 len2 c) qx qy = Read_Pixel s qx qy) ∧
    (i < len → (x + i) % 256 < width → y < s.height →
      Read_Pixel (Draw_Line_H s x y len c) ((x + i) % 256) y =
        decide (c = Color.WHITE)) ∧
    (i2 < len2 → x2 < width → (y2 + i2) % 256 < s.height →
      Read_Pixel (Draw_Line_V s x2 y2 len2 c) x2 ((y2 + i2) % 256) =
        decide (c = Color.WHITE)) := by
  obtain ⟨hh, hl⟩ := hwf
  refine ⟨?_, ?_, ?_, ?_⟩
  · intro hH
    exact Read_Pixel_Draw_Line_H_frame x y len px py c hpx hH s
  · intro hV
    exact Read_Pixel_Draw_Line_V_frame x2 y2 len2 qx qy c hqx hV s
  · intro hi hxi hy
    exact Read_Pixel_Draw_Line_H_effect x y c len s i hi hxi hy hh hl
  · intro hi2 hx2 hyi2
    exact Read_Pixel_Draw_Line_V_effect x2 y2 c len2 s i2 hi2 hx2 hyi2 hh hl

theorem C9_lines_witness :
    (WF st0 ∧ 100 < width ∧ ¬ OnSegH 255 5 2 100 50 ∧ ¬ OnSegV 3 5 4 100 50 ∧
      1 < 2 ∧ (255 + 1) % 256 < width ∧ 5 < st0.height ∧
      1 < 4 ∧ 3 < width ∧ (5 + 1) % 256 < st0.height) ∧
    ((¬ OnSegH 255 5 2 100 50 →
       Read_Pixel (Draw_Line_H st0 255 5 2 Color.WHITE) 100 50 =
         Read_Pixel st0 100 50) ∧
     (¬ OnSegV 3 5 4 100 50 →
       Read_Pixel (Draw_Line_V st0 3 5 4 Color.WHITE) 100 50 =
         Read_Pixel st0 100 50) ∧
     (1 < 2 → (255 + 1) % 256 < width → 5 < st0.height →
       Read_Pixel (Draw_Line_H st0 255 5 2 Color.WHITE) ((255 + 1) % 256) 5 =
         decide (Color.WHITE = Color.WHITE)) ∧
     (1 < 4 → 3 < width → (5 + 1) % 256 < st0.height →
       Read_Pixel (Draw_Line_V st0 3 5 4 Color.WHITE) 3 ((5 + 1) % 256) =
         decide (Color.WHITE = Color.WHITE))) :=
  ⟨⟨by decide, by decide, by decide, by decide, by decide, by decide,
    by decide, by decide, by decide, by decide⟩,
   C9_lines st0 255 5 2 1 100 50 3 5 4 1 100 50 Color.WHITE (by decide)
     (by decide) (by decide)⟩

/-! ### Glyph rendering (C5) -/

theorem Write_Char_Row_height (row px py : Nat) (c : Color) :
    ∀ w s, (Write_Char_Row s row px py c w).height = s.height := by
  intro w
  induction w with
  | zero => intro s; rfl
  | succ n ih =>
    intro s
    unfold Write_Char_Row
    cases c <;> dsimp only <;> split <;> rw [Draw_Pixel_height, ih]

theorem Write_Char_Row_font (row px py : Nat) (c : Color) :
    ∀ w s, (Write_Char_Row s row px py c w).font = s.font := by
  intro w
  induction w with
  | zero => intro s; rfl
  | succ n ih =>
    intro s
    unfold Write_Char_Row
    cases c <;> dsimp only <;> split <;> rw [Draw_Pixel_font, ih]

theorem Write_Char_Row_cursorX (row px py : Nat) (c : Color) :
    ∀ w s, (Write_Char_Row s row px py c w).cursorX = s.cursorX := by
  intro w
  induction w with
  | zero => intro s; rfl
  | succ n ih =>
    intro s
    unfold Write_Char_Row
    cases c <;> dsimp only <;> split <;> rw [Draw_Pixel_cursorX, ih]

theorem Write_Char_Row_cursorY (row px py : Nat) (c : Color) :
    ∀ w s, (Write_Char_Row s row px py c w).cursorY = s.cursorY := by
  intro w
  induction w with
  | zero => intro s; rfl
  | succ n ih =>
    intro s
    unfold Write_Char_Row
    cases c <;> dsimp only <;> split <;> rw [Draw_Pixel_cursorY, ih]

theorem Write_Char_Row_buffer_length (row px py : Nat) (c : Color) :
    ∀ w s, (Write_Char_Row s row px py c w).buffer.length = s.buffer.length := by
  intro w
  induction w with
  | zero => intro s; rfl
  | succ n ih =>
    intro s
    unfold Write_Char_Row
    cases c <;> dsimp only <;> split <;> rw [Draw_Pixel_buffer_length, ih]

theorem Write_Char_Rows_height (chr : Nat) (c : Color) :
    ∀ h s, (Write_Char_Rows s chr c h).height = s.height := by
  intro h
  induction h with
  | zero => intro s; rfl
  | succ m ih =>
    intro s
    unfold Write_Char_Rows
    dsimp only
    rw [Write_Char_Row_height, ih]

theorem Write_Char_Rows_font (chr : Nat) (c : Color) :
    ∀ h s, (Write_Char_Rows s chr c h).font = s.font := by
  intro h
  induction h with
  | zero => intro s; rfl
  | succ m ih =>
    intro s
    unfold Write_Char_Rows
    dsimp only
    rw [Write_Char_Row_font, ih]

theorem Write_Char_Rows_cursorX (chr : Nat) (c : Color) :
    ∀ h s, (Write_Char_Rows s chr c h).cursorX = s.cursorX := by
  intro h
  induction h with
  | zero => intro s; rfl
  | succ m ih =>
    intro s
    unfold Write_Char_Rows
    dsimp only
    rw [Write_Char_Row_cursorX, ih]

theorem Write_Char_Rows_cursorY (chr : Nat) (c : Color) :
    ∀ h s, (Write_Char_Rows s chr c h).cursorY = s.cursorY := by
  intro h
  induction h with
  | zero => intro s; rfl
  | succ m ih =>
    intro s
    unfold Write_Char_Rows
    dsimp only
    rw [Write_Char_Row_cursorY, ih]

theorem Write_Char_Rows_buffer_length (chr : Nat) (c : Color) :
    ∀ h s, (Write_Char_Rows s chr c h).buffer.length = s.buffer.length := by
  intro h
  induction h with
  | zero => intro s; rfl
  | succ m ih =>
    intro s
    unfold Write_Char_Rows
    dsimp only
    rw [Write_Char_Row_buffer_length, ih]

/-- The color drawn for glyph cell `n` of a row pattern: in normal mode
(`c = WHITE`) a set bit is WHITE, in inverted mode (`c = BLACK`) the two
colors are swapped. -/
def cellBool (row n : Nat) (c : Color) : Bool :=
  match c with
  | .WHITE => decide ((row <<< n) &&& 0x8000 ≠ 0)
  | .BLACK => !decide ((row <<< n) &&& 0x8000 ≠ 0)

/-- Bit 15 of `row << n` is bit `15 - n` of `row`, for `n ≤ 15`. -/
theorem glyph_bit_testBit (row n : Nat) (hn : n ≤ 15) :
    decide ((row <<< n) &&& 0x8000 ≠ 0) = row.testBit (15 - n) := by
  have h15 : (0x8000 : Nat) = 2 ^ 15 := by norm_num
  rw [h15, Nat.and_two_pow]
  rcases hb : (row <<< n).testBit 15 with _ | _
  · simp [hb]
    rw [Nat.testBit_shiftLeft] at hb
    simpa [hn] using hb.symm
  · simp [hb]
    rw [Nat.testBit_shiftLeft] at hb
    simpa [hn] using hb.symm

theorem Read_Pixel_Row_frame (row px py : Nat) (c : Color) (a b : Nat)
    (ha : a < width) :
    ∀ w s, (∀ n, n < w → ¬((px + n) % 256 = a ∧ py % 256 = b)) →
      Read_Pixel (Write_Char_Row s row px py c w) a b = Read_Pixel s a b := by
  intro w
  induction w with
  | zero => intro s _; rfl
  | succ n ih =>
    intro s hmiss
    have hne : (px + n) % 256 ≠ a ∨ py % 256 ≠ b :=
      not_and_or.mp (hmiss n (Nat.lt_succ_self n))
    have hrest : ∀ k, k < n → ¬((px + k) % 256 = a ∧ py % 256 = b) :=
      fun k hk => hmiss k (Nat.lt_succ_of_lt hk)
    unfold Write_Char_Row
    cases c <;> dsimp only <;> split <;>
      rw [Read_Pixel_Draw_Pixel_frame _ _ _ _ _ _ ha hne, ih s hrest]

theorem Read_Pixel_Row_effect (row px py : Nat) (c : Color) :
    ∀ w s n, n < w → px + w ≤ 256 → py < 256 → px + n < width → py < s.height →
      s.height ≤ 64 → s.buffer.length = buffer_size →
      Read_Pixel (Write_Char_Row s row px py c w) (px + n) py =
        cellBool row n c := by
  intro w
  induction w with
  | zero => intro s n hn; omega
  | succ m ih =>
    intro s n hn hw hpy hx hy hh hl
    have hm256 : (px + m) % 256 = px + m := Nat.mod_eq_of_lt (by omega)
    have hpy256 : py % 256 = py := Nat.mod_eq_of_lt hpy
    by_cases hnm : n = m
    · -- the cell is written by the last iteration
      subst hnm
      unfold Write_Char_Row
      cases c <;> dsimp only <;> split <;> rename_i hbit <;>
        rw [hm256, hpy256] <;>
        rw [Read_Pixel_Draw_Pixel_self _ _ _ _ hx
          (by rw [Write_Char_Row_height]; exact hy)
          (by rw [Write_Char_Row_height]; exact hh)
          (by rw [Write_Char_Row_buffer_length]; exact hl)] <;>
        simp [cellBool, hbit]
    · -- the cell was written earlier and later cells are elsewhere
      have hlt : n < m := by omega
      unfold Write_Char_Row
      have hne : (px + m) % 256 ≠ px + n ∨ py ≠ py := by
        left
        rw [hm256]
        omega
      cases c <;> dsimp only <;> split <;>
        rw [hpy256, Read_Pixel_Draw_Pixel_frame _ _ _ _ _ _ hx hne,
          ih s n hlt (by omega) hpy hx hy hh hl]

theorem Read_Pixel_Rows_effect (chr : Nat) (c : Color) :
    ∀ h s x' y', y' < h → x' < s.font.FontWidth →
      s.cursorX + s.font.FontWidth ≤ 256 → s.cursorY + h ≤ 256 →
      s.cursorX + x' < width → s.cursorY + y' < s.height →
      s.height ≤ 64 → s.buffer.length = buffer_size →
      Read_Pixel (Write_Char_Rows s chr c h) (s.cursorX + x') (s.cursorY + y') =
        cellBool (s.font.data ((chr - 32) * s.font.FontHeight + y')) x' c := by
  intro h
  induction h with
  | zero => intro s x' y' hy'; omega
  | succ m ih =>
    intro s x' y' hy' hx' hwx hwy hin1 hin2 hh hl
    unfold Write_Char_Rows
    dsimp only
    set s' := Write_Char_Rows s chr c m with hs'
    have hf : s'.font = s.font := Write_Char_Rows_font chr c m s
    have hcx : s'.cursorX = s.cursorX := Write_Char_Rows_cursorX chr c m s
    have hcy : s'.cursorY = s.cursorY := Write_Char_Rows_cursorY chr c m s
    have hht : s'.height = s.height := Write_Char_Rows_height chr c m s
    have hbl : s'.buffer.length = s.buffer.length :=
      Write_Char_Rows_buffer_length chr c m s
    by_cases hym : y' = m
    · -- this is the row written by the last iteration
      subst hym
      rw [hf, hcx, hcy]
      exact Read_Pixel_Row_effect
        (s.font.data ((chr - 32) * s.font.FontHeight + y'))
        s.cursorX (s.cursorY + y') c s.font.FontWidth s' x'
        hx' hwx (by omega) hin1 (by rw [hht]; exact hin2)
        (by rw [hht]; exact hh) (by rw [hbl]; exact hl)
    · -- the row was written earlier; the last row writes elsewhere
      have hym' : y' < m := by omega
      have hmiss : ∀ n, n < s'.font.FontWidth →
          ¬((s'.cursorX + n) % 256 = s.cursorX + x' ∧
            (s'.cursorY + m) % 256 = s.cursorY + y') := by
        intro n _ hcon
        have h2 := hcon.2
        rw [hcy, Nat.mod_eq_of_lt (by omega)] at h2
        omega
      rw [Read_Pixel_Row_frame _ _ _ c _ _ hin1 s'.font.FontWidth s' hmiss]
      exact ih s x' y' hym' hx' hwx (by omega) hin1 hin2 hh hl

/-- A concrete 128×64 state whose cursor sits at `x = 252`, as reached by
repeated 7-pixel-wide glyph advances from `x = 0`. -/
def st252 : St :=
  SSD1306_mk 64 0x12 0x78 font7x10z (List.replicate 1024 0) 252 0 (fun _ => 0)

/-- C5 counterexample: with the 7-wide font and `cursor.X = 252`,
`Write_Char` leaves `cursor.X = 3 = (252 + 7) mod 256`, not `259`: the
`uint8_t` cursor wraps, so cursor.X is not advanced by exactly `FontWidth`
(and the glyph cells wrap to the left edge of the screen the same way). -/
theorem C5_write_char_counterexample :
    (Write_Char st252 65 Color.WHITE).cursorX = 3 ∧
    st252.cursorX + st252.font.FontWidth = 259 ∧ (3 : Nat) ≠ 259 := by
  refine ⟨?_, by decide, by decide⟩
  decide

/-- C5 (amended): provided no `uint8_t` wraparound occurs
(`cursor.X + FontWidth < 256` and `cursor.Y + FontHeight ≤ 256`) and the
font is at most 16 pixels wide, `Write_Char(chr, color)` draws every glyph
cell `(x', y')` at pixel `(cursor.X + x', cursor.Y + y')`: in normal mode
(`color = WHITE`) the pixel reads back 1 exactly when bit `15 - x'` of the
glyph row word is set, in inverted mode (`color = BLACK`) the two colors
are swapped (the background is painted with the opposite color); afterwards
`cursor.X` has advanced by exactly `FontWidth` and `cursor.Y` is unchanged. -/
theorem C5_write_char (s : St) (chr x' y' : Nat) (c : Color)
    (hwf : WF s) (hW : s.font.FontWidth ≤ 16)
    (hwrapX : s.cursorX + s.font.FontWidth < 256)
    (hwrapY : s.cursorY + s.font.FontHeight ≤ 256)
    (hx' : x' < s.font.FontWidth) (hy' : y' < s.font.FontHeight)
    (hin1 : s.cursorX + x' < width) (hin2 : s.cursorY + y' < s.height) :
    (c = Color.WHITE →
      Read_Pixel (Write_Char s chr c) (s.cursorX + x') (s.cursorY + y') =
        (s.font.data ((chr - 32) * s.font.FontHeight + y')).testBit (15 - x')) ∧
    (c = Color.BLACK →
      Read_Pixel (Write_Char s chr c) (s.cursorX + x') (s.cursorY + y') =
        !(s.font.data ((chr - 32) * s.font.FontHeight + y')).testBit (15 - x')) ∧
    (Write_Char s chr c).cursorX = s.cursorX + s.font.FontWidth ∧
    (Write_Char s chr c).cursorY = s.cursorY := by
  obtain ⟨hh, hl⟩ := hwf
  have heff := Read_Pixel_Rows_effect chr c s.font.FontHeight s x' y' hy' hx'
    (by omega) hwrapY hin1 hin2 hh hl
  have hrp : Read_Pixel (Write_Char s chr c) (s.cursorX + x') (s.cursorY + y') =
      cellBool (s.font.data ((chr - 32) * s.font.FontHeight + y')) x' c := by
    unfold Write_Char
    dsimp only
    exact heff
  have hbit := glyph_bit_testBit
    (s.font.data ((chr - 32) * s.font.FontHeight + y')) x' (by omega)
  refine ⟨?_, ?_, ?_, ?_⟩
  · intro hc
    subst hc
    rw [hrp]
    unfold cellBool
    exact hbit
  · intro hc
    subst hc
    rw [hrp]
    unfold cellBool
    rw [hbit]
  · unfold Write_Char
    dsimp only
    rw [Write_Char_Rows_cursorX, Write_Char_Rows_font]
    exact Nat.mod_eq_of_lt hwrapX
  · unfold Write_Char
    dsimp only
    rw [Write_Char_Rows_cursorY]

theorem C5_write_char_witness :
    (WF st0 ∧ st0.font.FontWidth ≤ 16 ∧
      st0.cursorX + st0.font.FontWidth < 256 ∧
      st0.cursorY + st0.font.FontHeight ≤ 256 ∧
      2 < st0.font.FontWidth ∧ 3 < st0.font.FontHeight ∧
      st0.cursorX + 2 < width ∧ st0.cursorY + 3 < st0.height) ∧
    ((Color.WHITE = Color.WHITE →
      Read_Pixel (Write_Char st0 65 Color.WHITE) (st0.cursorX + 2) (st0.cursorY + 3) =
        (st0.font.data ((65 - 32) * st0.font.FontHeight + 3)).testBit (15 - 2)) ∧
     (Color.WHITE = Color.BLACK →
      Read_Pixel (Write_Char st0 65 Color.WHITE) (st0.cursorX + 2) (st0.cursorY + 3) =
        !(st0.font.data ((65 - 32) * st0.font.FontHeight + 3)).testBit (15 - 2)) ∧
     (Write_Char st0 65 Color.WHITE).cursorX = st0.cursorX + st0.font.FontWidth ∧
     (Write_Char st0 65 Color.WHITE).cursorY = st0.cursorY) :=
  ⟨⟨by decide, by decide, by decide, by decide, by decide, by decide,
    by decide, by decide⟩,
   C5_write_char st0 65 2 3 Color.WHITE (by decide) (by decide) (by decide)
     (by decide) (by decide) (by decide) (by decide) (by decide)⟩

end SSD1306
